import Mathlib

/-!
Verification of the route subresource reconciler
(pkg/console/subresource/route/route.go).

The Go code is shallowly embedded: routes, object metadata and the
operator configuration become Lean structures; the typed store client
(Get/Create/Update) becomes a record of functions, and the store calls a
function issues are recorded in an explicit call trace so that theorems
can speak about which calls were made.  Label and annotation maps are
embedded as association lists whose operations reproduce Go map
semantics (lookup of a key, assignment of a key); Go maps cannot hold a
key twice, so theorems that depend on map well-formedness carry a
no-duplicate-keys hypothesis.

Library helpers that route.go calls but that are not part of this
source tree (resourcemerge.EnsureObjectMeta,
resourcemerge.WithCleanLabelsAndAnnotations, the api name constants and
the util metadata helpers) are modelled from the specification's
description of them; each such definition carries a doc comment saying
so.
-/

set_option autoImplicit false

namespace OpRoute

/-- One owner reference recorded on a created object, a back-link to the
parent configuration object's identity. -/
structure OwnerReference where
  name : String
deriving DecidableEq

/-- Object metadata: namespace, name, label and annotation maps
(association lists standing in for Go maps) and owner references. -/
structure ObjectMeta where
  nameSpace : String
  name : String
  labels : List (String × String)
  annotations : List (String × String)
  ownerReferences : List OwnerReference
deriving DecidableEq

/-- routev1.RouteTargetReference: kind, service name and weight. -/
structure RouteTargetReference where
  kind : String
  name : String
  weight : Option Int
deriving DecidableEq

/-- routev1.RoutePort: the target port (intstr value, here its string form). -/
structure RoutePort where
  targetPort : String
deriving DecidableEq

/-- routev1.TLSConfig: termination mode, insecure-edge policy and the
optional certificate/key pair. -/
structure TLSConfig where
  termination : String
  insecureEdgeTerminationPolicy : String
  certificate : String
  key : String
deriving DecidableEq

/-- routev1.RouteSpec. -/
structure RouteSpec where
  host : String
  To : RouteTargetReference
  port : Option RoutePort
  tls : Option TLSConfig
  wildcardPolicy : String
deriving DecidableEq

/-- routev1.RouteIngressCondition: a typed condition with a status string. -/
structure RouteCondition where
  type : String
  status : String
deriving DecidableEq

/-- routev1.RouteIngress: one ingress controller's status entry. -/
structure RouteIngress where
  routerName : String
  host : String
  conditions : List RouteCondition
deriving DecidableEq

/-- routev1.RouteStatus: the ordered ingress entries. -/
structure RouteStatus where
  ingress : List RouteIngress
deriving DecidableEq

/-- routev1.Route. -/
structure Route where
  metadata : ObjectMeta
  spec : RouteSpec
  status : RouteStatus
deriving DecidableEq

/-- Reference to the secret holding the custom TLS certificate
(operatorConfig.Spec.Route.Secret). -/
structure SecretRef where
  name : String
deriving DecidableEq

/-- operatorv1.ConsoleConfigRoute: custom hostname and secret reference. -/
structure ConsoleConfigRoute where
  hostname : String
  secret : SecretRef
deriving DecidableEq

/-- The part of operatorv1.ConsoleSpec this file reads. -/
structure ConsoleSpec where
  route : ConsoleConfigRoute
deriving DecidableEq

/-- operatorv1.Console: the parent configuration object (its identity
plus the spec fields this file reads). -/
structure Console where
  name : String
  spec : ConsoleSpec
deriving DecidableEq

/-- CustomTLSCert from route.go: certificate and key text. -/
structure CustomTLSCert where
  Certificate : String
  Key : String
deriving DecidableEq

/-- The fixed default ingress controller name from route.go. -/
def defaultIngressController : String := "default"

/-- routev1.RouteAdmitted condition type. -/
def RouteAdmitted : String := "Admitted"

/-- corev1.ConditionTrue. -/
def ConditionTrue : String := "True"

/-- routev1.TLSTerminationEdge. -/
def TLSTerminationEdge : String := "edge"

/-- routev1.TLSTerminationReencrypt. -/
def TLSTerminationReencrypt : String := "reencrypt"

/-- routev1.InsecureEdgeTerminationPolicyRedirect. -/
def InsecureEdgeTerminationPolicyRedirect : String := "Redirect"

/-- routev1.WildcardPolicyNone. -/
def WildcardPolicyNone : String := "None"

/-- Modelled from the spec: the primary backend service name
(api.OpenShiftConsoleServiceName, not under src). -/
def OpenShiftConsoleServiceName : String := "console"

/-- Modelled from the spec: the redirect backend service name
(api.OpenshiftConsoleRedirectServiceName, not under src). -/
def OpenshiftConsoleRedirectServiceName : String := "console-redirect"

/-- Modelled from the spec: the primary container port name
(api.ConsoleContainerPortName, not under src). -/
def ConsoleContainerPortName : String := "https"

/-- Modelled from the spec: the redirect container port name
(api.RedirectContainerPortName, not under src). -/
def RedirectContainerPortName : String := "custom-route-redirect"

/-- Modelled from the spec: the name given to the custom route object
(api.OpenshiftConsoleCustomRouteName, not under src). -/
def OpenshiftConsoleCustomRouteName : String := "console-custom"

/-- Modelled from the spec: util.SharedMeta, the shared ObjectMeta
(name, namespace and operator labels) used by DefaultStub; its concrete
field values do not enter any claim. -/
def SharedMeta : ObjectMeta :=
  { nameSpace := "openshift-console"
    name := "console"
    labels := [("app", "console")]
    annotations := []
    ownerReferences := [] }

/-- Modelled from the spec: util.OwnerRefFrom, deriving an owner
reference from the parent configuration object's identity. -/
def OwnerRefFrom (cr : Console) : OwnerReference :=
  { name := cr.name }

/-- Modelled from the spec: util.AddOwnerRef, recording an owner
reference on the object (the Go helper mutates in place; the embedding
returns the updated object). -/
def AddOwnerRef (route : Route) (ref : OwnerReference) : Route :=
  { route with
      metadata :=
        { route.metadata with
            ownerReferences := route.metadata.ownerReferences ++ [ref] } }

/-- IsCustomRouteSet from route.go: nil guard, then whether the
configured hostname is of nonzero length. -/
def IsCustomRouteSet : Option Console → Bool
  | none => false
  | some operatorConfig => operatorConfig.spec.route.hostname.length != 0

/-- IsCustomRouteSecretSet from route.go. -/
def IsCustomRouteSecretSet : Option Console → Bool
  | none => false
  | some operatorConfig => operatorConfig.spec.route.secret.name.length != 0

/-- toService from route.go. -/
def toService (serviceName : String) : RouteTargetReference :=
  { kind := "Service", name := serviceName, weight := some 100 }

/-- port from route.go. -/
def port (p : String) : RoutePort :=
  { targetPort := p }

/-- tls from route.go: the termination type and redirect policy, plus
the caller-supplied certificate and key when one is given. -/
def tls (tlsConfig : Option CustomTLSCert) (terminationType : String) : TLSConfig :=
  let t : TLSConfig :=
    { termination := terminationType
      insecureEdgeTerminationPolicy := InsecureEdgeTerminationPolicyRedirect
      certificate := ""
      key := "" }
  match tlsConfig with
  | some cfg => { t with certificate := cfg.Certificate, key := cfg.Key }
  | none => t

/-- wildcard from route.go. -/
def wildcard : String := WildcardPolicyNone

/-- DefaultStub from route.go: a route carrying the shared metadata. -/
def DefaultStub : Route :=
  { metadata := SharedMeta
    spec :=
      { host := ""
        To := { kind := "", name := "", weight := none }
        port := none
        tls := none
        wildcardPolicy := "" }
    status := { ingress := [] } }

/-- DefaultRoute from route.go: primary service, re-encrypt termination
and primary port by default; redirect service, edge termination and
redirect port when a custom route hostname is set. -/
def DefaultRoute (cr : Console) : Route :=
  let route := DefaultStub
  let usePort :=
    if IsCustomRouteSet (some cr) then RedirectContainerPortName
    else ConsoleContainerPortName
  let tlsTermination :=
    if IsCustomRouteSet (some cr) then TLSTerminationEdge
    else TLSTerminationReencrypt
  let serviceName :=
    if IsCustomRouteSet (some cr) then OpenshiftConsoleRedirectServiceName
    else OpenShiftConsoleServiceName
  let route :=
    { route with
        spec :=
          { host := ""
            To := toService serviceName
            port := some (port usePort)
            tls := some (tls none tlsTermination)
            wildcardPolicy := wildcard } }
  AddOwnerRef route (OwnerRefFrom cr)

/-- CustomRoute from route.go: always the primary service with
re-encrypt termination, the configured hostname verbatim, and the
caller-supplied certificate pair when present. -/
def CustomRoute (cr : Console) (tlsConfig : Option CustomTLSCert) : Route :=
  let route := DefaultStub
  let route :=
    { route with metadata := { route.metadata with name := OpenshiftConsoleCustomRouteName } }
  let route :=
    { route with
        spec :=
          { host := cr.spec.route.hostname
            To := toService OpenShiftConsoleServiceName
            port := some (port ConsoleContainerPortName)
            tls := some (tls tlsConfig TLSTerminationReencrypt)
            wildcardPolicy := wildcard } }
  AddOwnerRef route (OwnerRefFrom cr)

/-- isIngressAdmitted from route.go: fold over the conditions, ending
true when a condition of the Admitted type with status True was seen. -/
def isIngressAdmitted (ingress : RouteIngress) : Bool :=
  ingress.conditions.foldl
    (fun admitted condition =>
      if condition.type = RouteAdmitted ∧ condition.status = ConditionTrue then true
      else admitted)
    false

/-- The loop body of GetCanonicalHost from route.go: skip entries of
other controllers, skip entries not admitted, return the first
remaining entry's host; empty string when the list runs out. -/
def canonicalHostFromIngress : List RouteIngress → String
  | [] => ""
  | ingress :: rest =>
    if ingress.routerName ≠ defaultIngressController then canonicalHostFromIngress rest
    else if isIngressAdmitted ingress = false then canonicalHostFromIngress rest
    else ingress.host

/-- GetCanonicalHost from route.go. -/
def GetCanonicalHost (route : Route) : String :=
  canonicalHostFromIngress route.status.ingress

/-- IsAdmitted from route.go: true when any ingress entry is admitted
(the Go loop returns true on the first admitted entry). -/
def IsAdmitted (route : Route) : Bool :=
  route.status.ingress.any (fun ingress => isIngressAdmitted ingress)

/-- The spec's description of the CanonicalHost algorithm, stated as a
search for the first ingress entry that both belongs to the default
controller and is admitted (spec-side definition, for comparison with
GetCanonicalHost). -/
def canonicalHostSpec (route : Route) : String :=
  match route.status.ingress.find?
      (fun i => decide (i.routerName = defaultIngressController) && isIngressAdmitted i) with
  | some i => i.host
  | none => ""

/-- Go map read: value of the first (only, for well-formed maps)
binding of the key. -/
def lookupKey : List (String × String) → String → Option String
  | [], _ => none
  | kv :: rest, k => if kv.1 = k then some kv.2 else lookupKey rest k

/-- Go map write: replace the binding of the key, appending a new
binding when the key is absent. -/
def setKey : List (String × String) → String → String → List (String × String)
  | [], k, v => [(k, v)]
  | kv :: rest, k, v =>
    if kv.1 = k then (k, v) :: setKey rest k v else kv :: setKey rest k v

/-- Modelled from the spec: the label/annotation keys that are
"operator-managed-only", the ones WithCleanLabelsAndAnnotations strips
before a create.  The spec does not enumerate them; they are modelled
as the keys carrying a trailing marker character. -/
def isOperatorManagedOnlyKey (k : String) : Bool := k.data.getLast? == some '-'

/-- Keys surviving the cleaning of a label or annotation map. -/
def cleanMap (m : List (String × String)) : List (String × String) :=
  m.filter (fun kv => !isOperatorManagedOnlyKey kv.1)

/-- Modelled from the spec: resourcemerge.WithCleanLabelsAndAnnotations
(library code, not under src): strips the operator-managed-only keys
from the labels and annotations of the object to be created. -/
def WithCleanLabelsAndAnnotations (r : Route) : Route :=
  { r with
      metadata :=
        { r.metadata with
            labels := cleanMap r.metadata.labels
            annotations := cleanMap r.metadata.annotations } }

/-- Modelled from the spec: the map half of resourcemerge.EnsureObjectMeta
(library code, not under src).  For every content key the desired map
specifies, overwrite the live map's value only if different, recording
whether any change occurred; keys the desired map does not specify are
left untouched.  The operator-managed-only marker keys are not content
(the create path strips them), so the merge does not treat them as
values to install - the spec's idempotence property requires this. -/
def mergeMap : Bool → List (String × String) → List (String × String) →
    Bool × List (String × String)
  | b, m, [] => (b, m)
  | b, m, kv :: rest =>
    if isOperatorManagedOnlyKey kv.1 then mergeMap b m rest
    else
      match lookupKey m kv.1 with
      | some v => if v = kv.2 then mergeMap b m rest else mergeMap true (setKey m kv.1 kv.2) rest
      | none => mergeMap true (setKey m kv.1 kv.2) rest

/-- Modelled from the spec: resourcemerge.EnsureObjectMeta (library
code, not under src): merge the desired labels and annotations into the
live metadata, accumulating the modified flag. -/
def EnsureObjectMeta (modified : Bool) (existing : ObjectMeta) (required : ObjectMeta) :
    Bool × ObjectMeta :=
  let lab := mergeMap modified existing.labels required.labels
  let ann := mergeMap lab.1 existing.annotations required.annotations
  (ann.1, { existing with labels := lab.2, annotations := ann.2 })

/-- Outcome of the store's Get call. -/
inductive GetRes where
  | found (r : Route)
  | notFound
  | err (e : String)
deriving DecidableEq

/-- The store client consumed by ApplyRoute and GetOrCreate: Get by
namespace and name, Create and Update in a namespace, each returning an
object/error pair as the Go client does. -/
structure RoutesClient where
  get : String → String → GetRes
  create : String → Route → Option Route × Option String
  update : String → Route → Option Route × Option String

/-- One store call issued by a reconcile entry point, with its
namespace and the exact object sent. -/
inductive StoreCall where
  | createCall (ns : String) (r : Route)
  | updateCall (ns : String) (r : Route)
deriving DecidableEq

/-- Return value of ApplyRoute, plus the trace of store calls issued. -/
structure ApplyResult where
  route : Option Route
  changed : Bool
  err : Option String
  calls : List StoreCall
deriving DecidableEq

/-- ApplyRoute from route.go: fetch; on not-found create the cleaned
deep copy of the required object; on any other fetch error propagate
it; otherwise merge metadata into a deep copy of the live object,
compare specs, and either return the live copy unchanged or overwrite
its whole spec and issue a single Update. -/
def ApplyRoute (client : RoutesClient) (required : Route) : ApplyResult :=
  match client.get required.metadata.nameSpace required.metadata.name with
  | GetRes.notFound =>
    let requiredCopy := required
    let cleaned := WithCleanLabelsAndAnnotations requiredCopy
    let created := client.create requiredCopy.metadata.nameSpace cleaned
    { route := created.1, changed := true, err := created.2
      calls := [StoreCall.createCall requiredCopy.metadata.nameSpace cleaned] }
  | GetRes.err e => { route := none, changed := false, err := some e, calls := [] }
  | GetRes.found existing =>
    let em := EnsureObjectMeta false existing.metadata required.metadata
    let existingCopy := { existing with metadata := em.2 }
    if existingCopy.spec = required.spec ∧ em.1 = false then
      { route := some existingCopy, changed := false, err := none, calls := [] }
    else
      let updated := { existingCopy with spec := required.spec }
      let upd := client.update required.metadata.nameSpace updated
      { route := upd.1, changed := true, err := upd.2
        calls := [StoreCall.updateCall required.metadata.nameSpace updated] }

/-- Return value of GetOrCreate, plus the trace of store calls issued. -/
structure GetOrCreateResult where
  route : Option Route
  isNew : Bool
  err : Option String
  calls : List StoreCall
deriving DecidableEq

/-- GetOrCreate from route.go: fetch; on not-found create exactly the
required object; on error return nil with the error; otherwise the
fetched object untouched. -/
def GetOrCreate (client : RoutesClient) (required : Route) : GetOrCreateResult :=
  match client.get required.metadata.nameSpace required.metadata.name with
  | GetRes.err e => { route := none, isNew := false, err := some e, calls := [] }
  | GetRes.found r => { route := some r, isNew := false, err := none, calls := [] }
  | GetRes.notFound =>
    let created := client.create required.metadata.nameSpace required
    match created.2 with
    | some e =>
      { route := none, isNew := true, err := some e
        calls := [StoreCall.createCall required.metadata.nameSpace required] }
    | none =>
      { route := created.1, isNew := true, err := none
        calls := [StoreCall.createCall required.metadata.nameSpace required] }

/-- State of the store at the one key ApplyRoute touches (the required
object's namespace and name): the live object there, if any. -/
def storeGetRes : Option Route → GetRes
  | some r => GetRes.found r
  | none => GetRes.notFound

/-- A well-behaved store client over a single-key store: Get reports
the stored object, Create and Update store and echo their argument and
never fail. -/
def storeClient (s : Option Route) : RoutesClient :=
  { get := fun _ _ => storeGetRes s
    create := fun _ r => (some r, none)
    update := fun _ r => (some r, none) }

/-- Replay a call trace against the single-key store. -/
def storeAfterCalls (s : Option Route) (calls : List StoreCall) : Option Route :=
  calls.foldl
    (fun _ c =>
      match c with
      | StoreCall.createCall _ r => some r
      | StoreCall.updateCall _ r => some r)
    s

/-- ApplyRoute run against the well-behaved single-key store: the
result together with the store state after the issued calls. -/
def ApplyRouteOnStore (s : Option Route) (required : Route) :
    ApplyResult × Option Route :=
  let res := ApplyRoute (storeClient s) required
  (res, storeAfterCalls s res.calls)

/-- The conclusion shape of the additive-merge claim: the stated
property holds of the object ApplyRoute returns without a store call,
and of the object it sends to Update. -/
def MetaPreserved (res : ApplyResult) (P : Route → Prop) : Prop :=
  (∀ r, res.calls = [] → res.route = some r → P r) ∧
  (∀ ns r, res.calls = [StoreCall.updateCall ns r] → P r)

/-- A configuration without a custom hostname. -/
def plainConsole : Console :=
  { name := "cluster", spec := { route := { hostname := "", secret := { name := "" } } } }

/-- A configuration with a custom hostname. -/
def customConsole : Console :=
  { name := "cluster"
    spec := { route := { hostname := "console.example.com", secret := { name := "" } } } }

/-- A concrete desired route, as the operator would build it. -/
def sampleRoute : Route := DefaultRoute plainConsole

/-- A client whose store already holds the sample route. -/
def foundClient : RoutesClient :=
  { get := fun _ _ => GetRes.found sampleRoute
    create := fun _ r => (some r, none)
    update := fun _ r => (some r, none) }

/-- A client whose store holds nothing. -/
def notFoundClient : RoutesClient :=
  { get := fun _ _ => GetRes.notFound
    create := fun _ r => (some r, none)
    update := fun _ r => (some r, none) }

/-- A client whose fetch fails with a non-not-found error. -/
def errClient : RoutesClient :=
  { get := fun _ _ => GetRes.err "boom"
    create := fun _ r => (some r, none)
    update := fun _ r => (some r, none) }

/-- A client whose fetch reports not-found and whose Create then fails. -/
def createFailClient : RoutesClient :=
  { get := fun _ _ => GetRes.notFound
    create := fun _ _ => (none, some "create failed")
    update := fun _ r => (some r, none) }

/-- A live route carrying a stray label the desired route does not mention. -/
def strayRoute : Route :=
  { sampleRoute with
      metadata := { sampleRoute.metadata with labels := [("stray", "v")] } }

/-- A client whose store holds the stray-labelled route. -/
def strayClient : RoutesClient :=
  { get := fun _ _ => GetRes.found strayRoute
    create := fun _ r => (some r, none)
    update := fun _ r => (some r, none) }

theorem lookupKey_setKey_self (m : List (String × String)) (k v : String) :
    lookupKey (setKey m k v) k = some v := by
  induction m with
  | nil => simp [setKey, lookupKey]
  | cons kv rest ih =>
    by_cases hk : kv.1 = k <;> simp [setKey, hk, lookupKey, ih]

theorem lookupKey_setKey_ne (m : List (String × String)) (k v k' : String) (h : k' ≠ k) :
    lookupKey (setKey m k v) k' = lookupKey m k' := by
  induction m with
  | nil => simp [setKey, lookupKey, Ne.symm h]
  | cons kv rest ih =>
    by_cases hk : kv.1 = k <;> simp [setKey, hk, lookupKey, Ne.symm h, ih]

theorem lookupKey_of_mem_nodup (m : List (String × String)) (k v : String)
    (hnd : (m.map Prod.fst).Nodup) (hmem : (k, v) ∈ m) :
    lookupKey m k = some v := by
  induction m with
  | nil => cases hmem
  | cons kv rest ih =>
    rw [List.map_cons, List.nodup_cons] at hnd
    have hnd' := hnd
    rcases List.mem_cons.mp hmem with hEq | hMem
    · simp [lookupKey, ← hEq]
    · have hk : kv.1 ≠ k := by
        intro hh
        exact hnd'.1 (hh ▸ (List.mem_map_of_mem Prod.fst hMem))
      simp only [lookupKey, if_neg hk]
      exact ih hnd'.2 hMem

theorem mergeMap_lookup_not_mem (req : List (String × String)) (b : Bool)
    (m : List (String × String)) (k : String) (h : k ∉ req.map Prod.fst) :
    lookupKey (mergeMap b m req).2 k = lookupKey m k := by
  induction req generalizing b m with
  | nil => rfl
  | cons kv rest ih =>
    have hk : k ≠ kv.1 := by
      intro hEq
      exact h (by simp [hEq])
    have hrest : k ∉ rest.map Prod.fst := by
      intro hm
      exact h (by simp [hm])
    by_cases ho : isOperatorManagedOnlyKey kv.1 = true
    · simp only [mergeMap, if_pos ho]
      exact ih b m hrest
    · simp only [mergeMap, if_neg ho]
      cases hl : lookupKey m kv.1 with
      | some v =>
        by_cases hv : v = kv.2
        · simp only [hl, if_pos hv]
          exact ih b m hrest
        · simp only [hl, if_neg hv]
          rw [ih true (setKey m kv.1 kv.2) hrest, lookupKey_setKey_ne _ _ _ _ hk]
      | none =>
        simp only [hl]
        rw [ih true (setKey m kv.1 kv.2) hrest, lookupKey_setKey_ne _ _ _ _ hk]

theorem mergeMap_lookup_mem (req : List (String × String)) (b : Bool)
    (m : List (String × String)) (k v : String)
    (hnd : (req.map Prod.fst).Nodup) (hmem : (k, v) ∈ req)
    (ho : isOperatorManagedOnlyKey k = false) :
    lookupKey (mergeMap b m req).2 k = some v := by
  induction req generalizing b m with
  | nil => cases hmem
  | cons kv rest ih =>
    rw [List.map_cons, List.nodup_cons] at hnd
    have hnd' := hnd
    rcases List.mem_cons.mp hmem with hEq | hMem
    · have hker : k ∉ rest.map Prod.fst := by
        have : kv.1 = k := by rw [← hEq]
        exact this ▸ hnd'.1
      simp only [mergeMap, ← hEq]
      rw [if_neg (by simp [ho])]
      cases hl : lookupKey m k with
      | some w =>
        by_cases hw : w = v
        · simp only [hl, if_pos hw]
          rw [mergeMap_lookup_not_mem rest b m k hker, hl, hw]
        · simp only [hl, if_neg hw]
          rw [mergeMap_lookup_not_mem rest true _ k hker, lookupKey_setKey_self]
      | none =>
        simp only [hl]
        rw [mergeMap_lookup_not_mem rest true _ k hker, lookupKey_setKey_self]
    · by_cases hob : isOperatorManagedOnlyKey kv.1 = true
      · simp only [mergeMap, if_pos hob]
        exact ih b m hnd'.2 hMem
      · simp only [mergeMap, if_neg hob]
        cases hl : lookupKey m kv.1 with
        | some w =>
          by_cases hw : w = kv.2
          · simp only [hl, if_pos hw]
            exact ih b m hnd'.2 hMem
          · simp only [hl, if_neg hw]
            exact ih true _ hnd'.2 hMem
        | none =>
          simp only [hl]
          exact ih true _ hnd'.2 hMem

theorem mergeMap_stable (req : List (String × String)) (b : Bool)
    (m : List (String × String))
    (h : ∀ kv ∈ req, isOperatorManagedOnlyKey kv.1 = false → lookupKey m kv.1 = some kv.2) :
    mergeMap b m req = (b, m) := by
  induction req with
  | nil => rfl
  | cons kv rest ih =>
    by_cases hob : isOperatorManagedOnlyKey kv.1 = true
    · simp only [mergeMap, if_pos hob]
      exact ih (fun x hx hox => h x (List.mem_cons_of_mem _ hx) hox)
    · have hl : lookupKey m kv.1 = some kv.2 :=
        h kv (List.mem_cons_self _ _) (by simpa using hob)
      simp only [mergeMap, if_neg hob, hl, if_pos rfl]
      exact ih (fun x hx hox => h x (List.mem_cons_of_mem _ hx) hox)

theorem lookupKey_cleanMap (m : List (String × String)) (kv : String × String)
    (hnd : (m.map Prod.fst).Nodup) (hm : kv ∈ m)
    (hof : isOperatorManagedOnlyKey kv.1 = false) :
    lookupKey (cleanMap m) kv.1 = some kv.2 := by
  apply lookupKey_of_mem_nodup
  · exact List.Nodup.sublist (List.Sublist.map Prod.fst (List.filter_sublist m)) hnd
  · exact List.mem_filter.mpr ⟨hm, by simp [hof]⟩

theorem applyStore_second_nochange (stored required : Route)
    (hspec : stored.spec = required.spec)
    (hlab : ∀ kv ∈ required.metadata.labels, isOperatorManagedOnlyKey kv.1 = false →
      lookupKey stored.metadata.labels kv.1 = some kv.2)
    (hann : ∀ kv ∈ required.metadata.annotations, isOperatorManagedOnlyKey kv.1 = false →
      lookupKey stored.metadata.annotations kv.1 = some kv.2) :
    (ApplyRoute (storeClient (some stored)) required).changed = false := by
  have h1 : mergeMap false stored.metadata.labels required.metadata.labels =
      (false, stored.metadata.labels) := mergeMap_stable _ _ _ hlab
  have h2 : mergeMap false stored.metadata.annotations required.metadata.annotations =
      (false, stored.metadata.annotations) := mergeMap_stable _ _ _ hann
  simp only [ApplyRoute, storeClient, storeGetRes, EnsureObjectMeta, h1, h2]
  rw [if_pos ⟨hspec, trivial⟩]

theorem ApplyRoute_found_meta (client : RoutesClient) (required existing : Route)
    (hget : client.get required.metadata.nameSpace required.metadata.name =
      GetRes.found existing) :
    MetaPreserved (ApplyRoute client required)
      (fun r => r.metadata = (EnsureObjectMeta false existing.metadata required.metadata).2) := by
  by_cases hC : (existing.spec = required.spec ∧
      (EnsureObjectMeta false existing.metadata required.metadata).1 = false)
  · simp only [MetaPreserved, ApplyRoute, hget, if_pos hC]
    constructor
    · intro r _ hroute
      simp only [Option.some.injEq] at hroute
      rw [← hroute]
    · intro ns r hcalls
      cases hcalls
  · simp only [MetaPreserved, ApplyRoute, hget, if_neg hC]
    constructor
    · intro r hcalls
      cases hcalls
    · intro ns r hcalls
      simp only [List.cons.injEq, StoreCall.updateCall.injEq, and_true] at hcalls
      rw [← hcalls.2]

theorem string_length_eq_zero_iff (s : String) : s.length = 0 ↔ s = "" := by
  constructor
  · intro h
    cases s with
    | mk data =>
      cases data with
      | nil => rfl
      | cons c cs => simp [String.length] at h
  · intro h
    subst h
    rfl

theorem isCustomRouteSet_iff (cr : Console) :
    IsCustomRouteSet (some cr) = true ↔ cr.spec.route.hostname ≠ "" :=
  Iff.trans bne_iff_ne (not_congr (string_length_eq_zero_iff _))

theorem isAdmitted_fold_iff (l : List RouteCondition) (b : Bool) :
    (l.foldl (fun admitted condition =>
        if condition.type = RouteAdmitted ∧ condition.status = ConditionTrue then true
        else admitted) b) = true ↔
      (b = true ∨ ∃ c ∈ l, c.type = RouteAdmitted ∧ c.status = ConditionTrue) := by
  induction l generalizing b with
  | nil => simp
  | cons c cs ih =>
    rw [List.foldl_cons, ih]
    by_cases hc : c.type = RouteAdmitted ∧ c.status = ConditionTrue
    · rw [if_pos hc]
      constructor
      · intro _
        exact Or.inr ⟨c, List.mem_cons_self c cs, hc⟩
      · intro _
        exact Or.inl rfl
    · rw [if_neg hc]
      apply or_congr_right
      constructor
      · rintro ⟨x, hx, hP⟩
        exact ⟨x, List.mem_cons_of_mem _ hx, hP⟩
      · rintro ⟨x, hx, hP⟩
        rcases List.mem_cons.mp hx with rfl | hx'
        · exact absurd hP hc
        · exact ⟨x, hx', hP⟩

theorem isIngressAdmitted_iff (i : RouteIngress) :
    isIngressAdmitted i = true ↔
      ∃ c ∈ i.conditions, c.type = RouteAdmitted ∧ c.status = ConditionTrue := by
  unfold isIngressAdmitted
  rw [isAdmitted_fold_iff]
  simp

/-- Claim C1: for a live route fetched without error, ApplyRoute
returns the merged live copy with changed=false and no store call
exactly when the metadata merge required no change and the live spec
equals the desired spec; otherwise it overwrites the live copy's whole
spec with the desired spec (full replace), issues a single Update with
that object, and returns the update call's result with changed=true. -/
theorem ApplyRoute_found_characterization (client : RoutesClient)
    (required existing : Route)
    (hget : client.get required.metadata.nameSpace required.metadata.name =
      GetRes.found existing) :
    (((EnsureObjectMeta false existing.metadata required.metadata).1 = false ∧
        existing.spec = required.spec) →
      ApplyRoute client required =
        { route := some { existing with
              metadata := (EnsureObjectMeta false existing.metadata required.metadata).2 }
          changed := false
          err := none
          calls := [] }) ∧
    (¬ ((EnsureObjectMeta false existing.metadata required.metadata).1 = false ∧
        existing.spec = required.spec) →
      ApplyRoute client required =
        { route := (client.update required.metadata.nameSpace
              { existing with
                  metadata := (EnsureObjectMeta false existing.metadata required.metadata).2
                  spec := required.spec }).1
          changed := true
          err := (client.update required.metadata.nameSpace
              { existing with
                  metadata := (EnsureObjectMeta false existing.metadata required.metadata).2
                  spec := required.spec }).2
          calls := [StoreCall.updateCall required.metadata.nameSpace
              { existing with
                  metadata := (EnsureObjectMeta false existing.metadata required.metadata).2
                  spec := required.spec }] }) := by
  constructor
  · intro h
    simp only [ApplyRoute, hget]
    rw [if_pos ⟨h.2, h.1⟩]
  · intro h
    simp only [ApplyRoute, hget]
    rw [if_neg (fun hc => h ⟨hc.2, hc.1⟩)]

/-- Witness for claim C1: the sample route is already live and
identical, so ApplyRoute returns it unchanged without a store call. -/
theorem ApplyRoute_found_characterization_witness :
    ApplyRoute foundClient sampleRoute =
      { route := some { sampleRoute with
            metadata := (EnsureObjectMeta false sampleRoute.metadata sampleRoute.metadata).2 }
        changed := false
        err := none
        calls := [] } :=
  (ApplyRoute_found_characterization foundClient sampleRoute sampleRoute rfl).1
    ⟨by decide, rfl⟩

/-- Claim C2: on a not-found fetch, ApplyRoute creates exactly the
cleaned desired object (a single Create call; the desired argument
itself, being a value in this embedding, is untouched) and returns the
create call's result with changed=true; on any other fetch error it
returns that error unchanged with a nil object, changed=false, and no
Create or Update call. -/
theorem ApplyRoute_notFound_or_error (client : RoutesClient) (required : Route) :
    (client.get required.metadata.nameSpace required.metadata.name = GetRes.notFound →
      ApplyRoute client required =
        { route := (client.create required.metadata.nameSpace
              (WithCleanLabelsAndAnnotations required)).1
          changed := true
          err := (client.create required.metadata.nameSpace
              (WithCleanLabelsAndAnnotations required)).2
          calls := [StoreCall.createCall required.metadata.nameSpace
              (WithCleanLabelsAndAnnotations required)] }) ∧
    (∀ e, client.get required.metadata.nameSpace required.metadata.name = GetRes.err e →
      ApplyRoute client required =
        { route := none, changed := false, err := some e, calls := [] }) := by
  constructor
  · intro h
    simp only [ApplyRoute, h]
  · intro e h
    simp only [ApplyRoute, h]

/-- Witness for claim C2: a not-found fetch creates the cleaned sample
route; an erroring fetch propagates the error with no call. -/
theorem ApplyRoute_notFound_or_error_witness :
    ApplyRoute notFoundClient sampleRoute =
      { route := some (WithCleanLabelsAndAnnotations sampleRoute)
        changed := true
        err := none
        calls := [StoreCall.createCall "openshift-console"
            (WithCleanLabelsAndAnnotations sampleRoute)] } ∧
    ApplyRoute errClient sampleRoute =
      { route := none, changed := false, err := some "boom", calls := [] } :=
  ⟨(ApplyRoute_notFound_or_error notFoundClient sampleRoute).1 rfl,
   (ApplyRoute_notFound_or_error errClient sampleRoute).2 "boom" rfl⟩

/-- Claim C3: ApplyRoute is idempotent against the well-behaved store:
when a first call succeeds and nothing else mutates the store, a second
call with the same desired route reports changed=false.  The
no-duplicate-key hypotheses state that the desired labels and
annotations are genuine Go maps. -/
theorem ApplyRoute_idempotent (s : Option Route) (required : Route)
    (hl : (required.metadata.labels.map Prod.fst).Nodup)
    (ha : (required.metadata.annotations.map Prod.fst).Nodup)
    (_hok : (ApplyRouteOnStore s required).1.err = none) :
    (ApplyRouteOnStore (ApplyRouteOnStore s required).2 required).1.changed = false := by
  cases s with
  | none =>
    have h2 : (ApplyRouteOnStore none required).2 =
        some (WithCleanLabelsAndAnnotations required) := rfl
    rw [h2]
    exact applyStore_second_nochange _ _ rfl
      (fun kv hm hof => lookupKey_cleanMap _ kv hl hm hof)
      (fun kv hm hof => lookupKey_cleanMap _ kv ha hm hof)
  | some r =>
    by_cases hcond : (r.spec = required.spec ∧
        (EnsureObjectMeta false r.metadata required.metadata).1 = false)
    · have h2 : (ApplyRouteOnStore (some r) required).2 = some r := by
        simp only [ApplyRouteOnStore, ApplyRoute, storeClient, storeGetRes]
        rw [if_pos hcond]
        rfl
      rw [h2]
      simp only [ApplyRouteOnStore, ApplyRoute, storeClient, storeGetRes]
      rw [if_pos hcond]
    · have h2 : (ApplyRouteOnStore (some r) required).2 =
          some { r with
              metadata := (EnsureObjectMeta false r.metadata required.metadata).2
              spec := required.spec } := by
        simp only [ApplyRouteOnStore, ApplyRoute, storeClient, storeGetRes]
        rw [if_neg hcond]
        rfl
      rw [h2]
      refine applyStore_second_nochange _ _ rfl ?_ ?_
      · intro kv hm hof
        exact mergeMap_lookup_mem required.metadata.labels false r.metadata.labels
          kv.1 kv.2 hl hm hof
      · intro kv hm hof
        exact mergeMap_lookup_mem required.metadata.annotations _ r.metadata.annotations
          kv.1 kv.2 ha hm hof

/-- Witness for claim C3: starting from an empty store, a second apply
of the sample route reports changed=false. -/
theorem ApplyRoute_idempotent_witness :
    (ApplyRouteOnStore (ApplyRouteOnStore none sampleRoute).2 sampleRoute).1.changed = false :=
  ApplyRoute_idempotent none sampleRoute (by decide) (by decide) rfl

/-- Claim C4: the metadata merge is purely additive: a label or
annotation key present on the live object and absent from the desired
object is still present, with its original value, on the object
ApplyRoute returns without a store call or sends to Update. -/
theorem ApplyRoute_merge_additive (client : RoutesClient)
    (required existing : Route) (k v : String)
    (hget : client.get required.metadata.nameSpace required.metadata.name =
      GetRes.found existing) :
    ((lookupKey existing.metadata.labels k = some v ∧
        k ∉ required.metadata.labels.map Prod.fst) →
      MetaPreserved (ApplyRoute client required)
        (fun r => lookupKey r.metadata.labels k = some v)) ∧
    ((lookupKey existing.metadata.annotations k = some v ∧
        k ∉ required.metadata.annotations.map Prod.fst) →
      MetaPreserved (ApplyRoute client required)
        (fun r => lookupKey r.metadata.annotations k = some v)) := by
  have base := ApplyRoute_found_meta client required existing hget
  constructor
  · rintro ⟨hL, hnm⟩
    refine ⟨fun r h1 h2 => ?_, fun ns r h1 => ?_⟩
    · show lookupKey r.metadata.labels k = some v
      rw [base.1 r h1 h2]
      show lookupKey (mergeMap false existing.metadata.labels
        required.metadata.labels).2 k = some v
      rw [mergeMap_lookup_not_mem _ _ _ _ hnm]
      exact hL
    · show lookupKey r.metadata.labels k = some v
      rw [base.2 ns r h1]
      show lookupKey (mergeMap false existing.metadata.labels
        required.metadata.labels).2 k = some v
      rw [mergeMap_lookup_not_mem _ _ _ _ hnm]
      exact hL
  · rintro ⟨hL, hnm⟩
    refine ⟨fun r h1 h2 => ?_, fun ns r h1 => ?_⟩
    · show lookupKey r.metadata.annotations k = some v
      rw [base.1 r h1 h2]
      show lookupKey (mergeMap
        (mergeMap false existing.metadata.labels required.metadata.labels).1
        existing.metadata.annotations required.metadata.annotations).2 k = some v
      rw [mergeMap_lookup_not_mem _ _ _ _ hnm]
      exact hL
    · show lookupKey r.metadata.annotations k = some v
      rw [base.2 ns r h1]
      show lookupKey (mergeMap
        (mergeMap false existing.metadata.labels required.metadata.labels).1
        existing.metadata.annotations required.metadata.annotations).2 k = some v
      rw [mergeMap_lookup_not_mem _ _ _ _ hnm]
      exact hL

/-- Witness for claim C4: the stray label on the live route survives
the merge on the object sent to Update. -/
theorem ApplyRoute_merge_additive_witness :
    MetaPreserved (ApplyRoute strayClient sampleRoute)
      (fun r => lookupKey r.metadata.labels "stray" = some "v") :=
  (ApplyRoute_merge_additive strayClient sampleRoute strayRoute "stray" "v" rfl).1
    ⟨by decide, by decide⟩

/-- Claim C5: DefaultRoute targets the redirect backend service with
edge termination on the redirect port exactly when the configuration
carries a non-empty custom hostname, and the primary backend service
with re-encrypt termination on the primary port otherwise. -/
theorem DefaultRoute_policy (cr : Console) :
    (cr.spec.route.hostname ≠ "" →
      (DefaultRoute cr).spec.To.name = OpenshiftConsoleRedirectServiceName ∧
      ((DefaultRoute cr).spec.tls).map (fun t => t.termination) = some TLSTerminationEdge ∧
      (DefaultRoute cr).spec.port = some (port RedirectContainerPortName)) ∧
    (cr.spec.route.hostname = "" →
      (DefaultRoute cr).spec.To.name = OpenShiftConsoleServiceName ∧
      ((DefaultRoute cr).spec.tls).map (fun t => t.termination) =
        some TLSTerminationReencrypt ∧
      (DefaultRoute cr).spec.port = some (port ConsoleContainerPortName)) := by
  constructor
  · intro h
    have hb : IsCustomRouteSet (some cr) = true := (isCustomRouteSet_iff cr).mpr h
    refine ⟨?_, ?_, ?_⟩ <;>
      simp [DefaultRoute, hb, AddOwnerRef, toService, port, tls, wildcard, DefaultStub]
  · intro h
    have hb : IsCustomRouteSet (some cr) = false := by
      cases hB : IsCustomRouteSet (some cr) with
      | false => rfl
      | true => exact absurd h ((isCustomRouteSet_iff cr).mp hB)
    refine ⟨?_, ?_, ?_⟩ <;>
      simp [DefaultRoute, hb, AddOwnerRef, toService, port, tls, wildcard, DefaultStub]

/-- Witness for claim C5: the two sample configurations exercise both
branches. -/
theorem DefaultRoute_policy_witness :
    ((DefaultRoute customConsole).spec.To.name = OpenshiftConsoleRedirectServiceName ∧
      ((DefaultRoute customConsole).spec.tls).map (fun t => t.termination) =
        some TLSTerminationEdge ∧
      (DefaultRoute customConsole).spec.port = some (port RedirectContainerPortName)) ∧
    ((DefaultRoute plainConsole).spec.To.name = OpenShiftConsoleServiceName ∧
      ((DefaultRoute plainConsole).spec.tls).map (fun t => t.termination) =
        some TLSTerminationReencrypt ∧
      (DefaultRoute plainConsole).spec.port = some (port ConsoleContainerPortName)) :=
  ⟨(DefaultRoute_policy customConsole).1 (by decide),
   (DefaultRoute_policy plainConsole).2 rfl⟩

/-- Claim C6: CustomRoute always targets the primary backend service
with re-encrypt termination, carries the configured hostname verbatim,
and copies the caller-supplied certificate and key into the TLS config
exactly when a pair is supplied. -/
theorem CustomRoute_policy (cr : Console) (tlsConfig : Option CustomTLSCert) :
    (CustomRoute cr tlsConfig).spec.To.name = OpenShiftConsoleServiceName ∧
    ((CustomRoute cr tlsConfig).spec.tls).map (fun t => t.termination) =
      some TLSTerminationReencrypt ∧
    (CustomRoute cr tlsConfig).spec.host = cr.spec.route.hostname ∧
    (∀ p, tlsConfig = some p →
      ((CustomRoute cr tlsConfig).spec.tls).map (fun t => (t.certificate, t.key)) =
        some (p.Certificate, p.Key)) ∧
    (tlsConfig = none →
      ((CustomRoute cr tlsConfig).spec.tls).map (fun t => (t.certificate, t.key)) =
        some ("", "")) := by
  cases tlsConfig with
  | none =>
    refine ⟨?_, ?_, ?_, ?_, ?_⟩ <;>
      simp [CustomRoute, AddOwnerRef, toService, port, tls, wildcard, DefaultStub]
  | some p =>
    refine ⟨?_, ?_, ?_, ?_, ?_⟩ <;>
      simp [CustomRoute, AddOwnerRef, toService, port, tls, wildcard, DefaultStub]

/-- Witness for claim C6: a concrete certificate pair is copied into
the custom route's TLS config. -/
theorem CustomRoute_policy_witness :
    ((CustomRoute customConsole (some { Certificate := "CERT", Key := "KEY" })).spec.tls).map
        (fun t => (t.certificate, t.key)) = some ("CERT", "KEY") :=
  ((CustomRoute_policy customConsole
      (some { Certificate := "CERT", Key := "KEY" })).2.2.2.1
    { Certificate := "CERT", Key := "KEY" } rfl)

/-- Claim C7: GetCanonicalHost scans the ingress entries in order,
skipping entries of other controllers and entries not admitted, and
returns the first qualifying entry's hostname, or the empty string when
no entry of the default controller qualifies - equivalently, it equals
the find-first formulation of the spec. -/
theorem GetCanonicalHost_eq_spec (route : Route) :
    GetCanonicalHost route = canonicalHostSpec route := by
  unfold GetCanonicalHost canonicalHostSpec
  generalize route.status.ingress = l
  induction l with
  | nil => rfl
  | cons i rest ih =>
    by_cases h1 : i.routerName = defaultIngressController
    · by_cases h2 : isIngressAdmitted i = true
      · rw [List.find?_cons_of_pos _ (by simp [h1, h2])]
        simp [canonicalHostFromIngress, h1, h2]
      · have h2' : isIngressAdmitted i = false := by
          cases hB : isIngressAdmitted i with
          | false => rfl
          | true => exact absurd hB h2
        rw [List.find?_cons_of_neg _ (by simp [h2'])]
        rw [← ih]
        simp [canonicalHostFromIngress, h1, h2']
    · rw [List.find?_cons_of_neg _ (by simp [h1])]
      rw [← ih]
      simp [canonicalHostFromIngress, h1]

/-- Claim C8: IsAdmitted is true exactly when some ingress entry, of
any controller, carries a condition of the Admitted type whose status
is literally True. -/
theorem IsAdmitted_iff (route : Route) :
    IsAdmitted route = true ↔
      ∃ i ∈ route.status.ingress, ∃ c ∈ i.conditions,
        c.type = RouteAdmitted ∧ c.status = ConditionTrue := by
  simp only [IsAdmitted, List.any_eq_true, isIngressAdmitted_iff]

/-- Claim C9: GetOrCreate fetches by namespace and name; when the fetch
succeeds it returns the fetched object untouched with no store call;
fetch errors propagate unchanged; on not-found it issues one Create
with exactly the provided object (no cleaning, no merge) and reports it
new; and it never issues an Update. -/
theorem GetOrCreate_characterization (client : RoutesClient) (required : Route) :
    (∀ r, client.get required.metadata.nameSpace required.metadata.name = GetRes.found r →
      GetOrCreate client required =
        { route := some r, isNew := false, err := none, calls := [] }) ∧
    (∀ e, client.get required.metadata.nameSpace required.metadata.name = GetRes.err e →
      GetOrCreate client required =
        { route := none, isNew := false, err := some e, calls := [] }) ∧
    (client.get required.metadata.nameSpace required.metadata.name = GetRes.notFound →
      (GetOrCreate client required).calls =
        [StoreCall.createCall required.metadata.nameSpace required] ∧
      (GetOrCreate client required).isNew = true) ∧
    (∀ ns r, StoreCall.updateCall ns r ∉ (GetOrCreate client required).calls) := by
  refine ⟨?_, ?_, ?_, ?_⟩
  · intro r h
    simp only [GetOrCreate, h]
  · intro e h
    simp only [GetOrCreate, h]
  · intro h
    simp only [GetOrCreate, h]
    cases hc : (client.create required.metadata.nameSpace required).2 <;> simp [hc]
  · intro ns r
    cases hg : client.get required.metadata.nameSpace required.metadata.name with
    | found r' => simp [GetOrCreate, hg]
    | err e => simp [GetOrCreate, hg]
    | notFound =>
      simp only [GetOrCreate, hg]
      cases hc : (client.create required.metadata.nameSpace required).2 <;> simp [hc]

/-- Witness for claim C9: the three fetch outcomes at concrete clients. -/
theorem GetOrCreate_characterization_witness :
    GetOrCreate foundClient sampleRoute =
      { route := some sampleRoute, isNew := false, err := none, calls := [] } ∧
    GetOrCreate errClient sampleRoute =
      { route := none, isNew := false, err := some "boom", calls := [] } ∧
    (GetOrCreate notFoundClient sampleRoute).isNew = true :=
  ⟨(GetOrCreate_characterization foundClient sampleRoute).1 sampleRoute rfl,
   (GetOrCreate_characterization errClient sampleRoute).2.1 "boom" rfl,
   ((GetOrCreate_characterization notFoundClient sampleRoute).2.2.1 rfl).2⟩

/-- Claim C10: when the fetch reports not-found and the Create call
itself fails, GetOrCreate returns a nil route, isNew=true, and the
create error. -/
theorem GetOrCreate_create_error (client : RoutesClient) (required : Route) (e : String)
    (hget : client.get required.metadata.nameSpace required.metadata.name =
      GetRes.notFound)
    (hcreate : (client.create required.metadata.nameSpace required).2 = some e) :
    GetOrCreate client required =
      { route := none, isNew := true, err := some e
        calls := [StoreCall.createCall required.metadata.nameSpace required] } := by
  simp only [GetOrCreate, hget, hcreate]

/-- Witness for claim C10: a failing Create surfaces its error with a
nil object and isNew=true. -/
theorem GetOrCreate_create_error_witness :
    GetOrCreate createFailClient sampleRoute =
      { route := none, isNew := true, err := some "create failed"
        calls := [StoreCall.createCall "openshift-console" sampleRoute] } :=
  GetOrCreate_create_error createFailClient sampleRoute "create failed" rfl rfl

end OpRoute
